import Mathlib

/-
Verification of the CHIRP service-discovery Manager
(src/CHIRP/Manager.cpp) against its specification.

The Manager keeps two ordered sets (registered and discovered services)
and a callback registry, and processes inbound REQUEST / OFFER / LEAVING
datagrams in a receive loop.  We embed the state and the operations as
pure functions; std::set is modelled as a sorted list manipulated through
comparator-equivalence (contains / insert / erase), and the observable
effects of an operation (broadcasts sent, callbacks dispatched) are
returned as explicit output lists.
-/

namespace Chirp

/-- Modelled from the spec: the ServiceIdentifier enumeration lives in a
protocol header that is not part of the supplied sources.  Per §3 it is a
small closed enumeration (CONTROL, HEARTBEAT, MONITORING, DATA), each
variant with a stable 1-byte numeric tag. -/
inductive ServiceIdentifier
  | CONTROL
  | HEARTBEAT
  | MONITORING
  | DATA
deriving DecidableEq, Repr

/-- Modelled from the spec: the stable 1-byte wire tag of each variant,
used by std::to_underlying in the comparison operators. -/
def ServiceIdentifier.tag : ServiceIdentifier → Nat
  | .CONTROL => 1
  | .HEARTBEAT => 2
  | .MONITORING => 3
  | .DATA => 4

/-- MessageType of a CHIRP datagram, wire tags 1/2/3 (spec §3, §4.2). -/
inductive MessageType
  | REQUEST
  | OFFER
  | LEAVING
deriving DecidableEq, Repr

/-- Modelled from the spec: an MD5 hash is 16 opaque bytes compared
lexicographically (§3, §4.1); the MD5 class itself is not in the supplied
sources.  We model it as a list of bytes. -/
abbrev Hash := List Nat

/-- Three-way lexicographic comparison of two hashes, the model of
the spaceship operator on the 16-byte MD5 digests. -/
def hashCmp : Hash → Hash → Ordering
  | [], [] => .eq
  | [], _ :: _ => .lt
  | _ :: _, [] => .gt
  | a :: as, b :: bs =>
    if a < b then .lt
    else if b < a then .gt
    else hashCmp as bs

/-- RegisteredService from Manager.hpp: an identifier and a port. -/
structure RegisteredService where
  identifier : ServiceIdentifier
  port : Nat
deriving DecidableEq, Repr

/-- RegisteredService comparison, mirroring
RegisteredService::operator< in src/CHIRP/Manager.cpp lines 9-20:
first by service id tag, then by port. -/
def rsLt (a b : RegisteredService) : Bool :=
  if a.identifier.tag < b.identifier.tag then true
  else if b.identifier.tag < a.identifier.tag then false
  else a.port < b.port

/-- DiscoveredService from Manager.hpp: sender address, name hash,
identifier and port. -/
structure DiscoveredService where
  address : Nat
  name_hash : Hash
  identifier : ServiceIdentifier
  port : Nat
deriving DecidableEq, Repr

/-- DiscoveredService comparison, mirroring
DiscoveredService::operator< in src/CHIRP/Manager.cpp lines 22-40:
the address is ignored ("Ignore IP when sorting"); compare the name
hashes, then the identifier tags, then the ports. -/
def dsLt (a b : DiscoveredService) : Bool :=
  match hashCmp a.name_hash b.name_hash with
  | .lt => true
  | .gt => false
  | .eq =>
    if a.identifier.tag < b.identifier.tag then true
    else if b.identifier.tag < a.identifier.tag then false
    else a.port < b.port

/-- A callback registry entry: std::pair of a function pointer and a user
data pointer, modelled by numeric identities. -/
abbrev CallbackEntry := Nat × Nat

/-
std::set is modelled as a list ordered by its comparator.  Membership,
insertion and erasure use comparator equivalence (neither element is less
than the other), exactly as std::set does.
-/

/-- Membership under comparator equivalence: some element of the set is
equivalent to x (neither compares less than the other). -/
def setContains (lt : α → α → Bool) (s : List α) (x : α) : Bool :=
  s.any fun y => !lt x y && !lt y x

/-- Insertion position: place x before the first element it is less
than (for comparator-sorted lists this keeps the list sorted). -/
def insertSorted (lt : α → α → Bool) : List α → α → List α
  | [], x => [x]
  | y :: ys, x => if lt x y then x :: y :: ys else y :: insertSorted lt ys x

/-- std::set::insert — insert x iff no equivalent element is present;
the Bool is the "actually inserted" flag (insert_ret.second). -/
def setInsert (lt : α → α → Bool) (s : List α) (x : α) : List α × Bool :=
  if setContains lt s x then (s, false) else (insertSorted lt s x, true)

/-- std::set::erase — remove the elements equivalent to x; the Bool is
the "actually erased" flag (erase_ret > 0). -/
def setErase (lt : α → α → Bool) (s : List α) (x : α) : List α × Bool :=
  if setContains lt s x then (s.filter fun y => lt x y || lt y x, true)
  else (s, false)

/-- An outbound broadcast as assembled by Manager::SendMessage
(Manager.cpp lines 127-130): Message(type, group_hash_, name_hash_,
service.identifier, service.port). -/
structure Broadcast where
  mtype : MessageType
  group_hash : Hash
  name_hash : Hash
  identifier : ServiceIdentifier
  port : Nat
deriving DecidableEq, Repr

/-- A dispatched discovery callback: the registry entry it was taken
from, the DiscoveredService argument, and the departing flag. -/
structure CallbackInvocation where
  entry : CallbackEntry
  service : DiscoveredService
  departing : Bool
deriving DecidableEq, Repr

/-- The Manager state: the two hashes fixed at construction and the
three mutable shared structures (registered set, discovered set,
callback registry), each a comparator-sorted list. -/
structure ManagerState where
  group_hash : Hash
  name_hash : Hash
  registered : List RegisteredService
  discovered : List DiscoveredService
  callbacks : List CallbackEntry
deriving DecidableEq, Repr

/-- Manager::SendMessage: assemble a Message from the given type, the
construction-time hashes and the service's identifier and port. -/
def SendMessage (st : ManagerState) (t : MessageType) (service : RegisteredService) : Broadcast :=
  ⟨t, st.group_hash, st.name_hash, service.identifier, service.port⟩

/-- Manager::RegisterService (Manager.cpp lines 61-72): insert into the
registered set; if actually inserted, emit one OFFER broadcast; return
the inserted flag. -/
def RegisterService (st : ManagerState) (service : RegisteredService) :
    ManagerState × Bool × List Broadcast :=
  let ins := setInsert rsLt st.registered service
  let st' := { st with registered := ins.1 }
  if ins.2 then (st', true, [SendMessage st MessageType.OFFER service])
  else (st', false, [])

/-- Manager::UnregisterService (Manager.cpp lines 74-86): erase from the
registered set; if actually erased, emit one LEAVING broadcast; return
the erased flag. -/
def UnregisterService (st : ManagerState) (service : RegisteredService) :
    ManagerState × Bool × List Broadcast :=
  let er := setErase rsLt st.registered service
  let st' := { st with registered := er.1 }
  if er.2 then (st', true, [SendMessage st MessageType.LEAVING service])
  else (st', false, [])

/-- Manager::UnregisterServices (Manager.cpp lines 88-94): under the
lock, emit a LEAVING broadcast for each registered service in the set's
iteration order, then clear the set. -/
def UnregisterServices (st : ManagerState) : ManagerState × List Broadcast :=
  ({ st with registered := [] },
   st.registered.map fun service => SendMessage st MessageType.LEAVING service)

/-- Manager::~Manager (Manager.cpp lines 46-54): stop and join the
receive thread, then UnregisterServices.  The thread management has no
effect on the sets, so the destructor's observable behaviour is that of
UnregisterServices. -/
def destructor (st : ManagerState) : ManagerState × List Broadcast :=
  UnregisterServices st

/-- A decoded CHIRP message as exposed by the Message accessors used in
Manager::Run. -/
structure Msg where
  mtype : MessageType
  group_hash : Hash
  name_hash : Hash
  service_id : ServiceIdentifier
  port : Nat
deriving DecidableEq, Repr

/-- One iteration body of Manager::Run (Manager.cpp lines 137-196) on a
successfully decoded message: filter by group hash (line 139) and by
name hash (line 143, the code drops the datagram when the name hash
DIFFERS from the local one), build the DiscoveredService, then dispatch
on the message type.  Returns the new state, the broadcasts sent and the
callbacks dispatched. -/
def processMsg (st : ManagerState) (ip : Nat) (msg : Msg) :
    ManagerState × List Broadcast × List CallbackInvocation :=
  if msg.group_hash ≠ st.group_hash then (st, [], [])
  else if msg.name_hash ≠ st.name_hash then (st, [], [])
  else
    let d : DiscoveredService := ⟨ip, msg.name_hash, msg.service_id, msg.port⟩
    match msg.mtype with
    | MessageType.REQUEST =>
      (st,
       (st.registered.filter fun service => service.identifier = msg.service_id).map
         fun service => SendMessage st MessageType.OFFER service,
       [])
    | MessageType.OFFER =>
      if setContains dsLt st.discovered d then (st, [], [])
      else
        ({ st with discovered := (setInsert dsLt st.discovered d).1 },
         [],
         st.callbacks.map fun cb => ⟨cb, d, false⟩)
    | MessageType.LEAVING =>
      if setContains dsLt st.discovered d then
        ({ st with discovered := (setErase dsLt st.discovered d).1 },
         [],
         st.callbacks.map fun cb => ⟨cb, d, true⟩)
      else (st, [], [])

/-- One iteration of Manager::Run on a raw datagram: none models a
datagram on which Message decoding raised DecodeError, which the loop
catches (Manager.cpp lines 198-200) leaving all state untouched. -/
def processDatagram (st : ManagerState) (ip : Nat) (parsed : Option Msg) :
    ManagerState × List Broadcast × List CallbackInvocation :=
  match parsed with
  | none => (st, [], [])
  | some msg => processMsg st ip msg

/-- Manager::Run over a finite inbound trace: fold processDatagram over
the datagrams, concatenating the outputs. -/
def Run (st : ManagerState) :
    List (Nat × Option Msg) → ManagerState × List Broadcast × List CallbackInvocation
  | [] => (st, [], [])
  | (ip, parsed) :: rest =>
    let r := processDatagram st ip parsed
    let r2 := Run r.1 rest
    (r2.1, r.2.1 ++ r2.2.1, r.2.2 ++ r2.2.2)

/-
Spec-side definitions for the ordering claim (refinement comparison).
-/

/-- Written from the claim wording for the ordering comparison:
bytewise lexicographic strict comparison of two hashes. -/
def hashLtSpec : Hash → Hash → Bool
  | [], [] => false
  | [], _ :: _ => true
  | _ :: _, [] => false
  | a :: as, b :: bs => a < b || (a == b && hashLtSpec as bs)

/-- Written from the claim wording for the ordering comparison:
bytewise equality of two hashes. -/
def hashEqSpec : Hash → Hash → Bool
  | [], [] => true
  | [], _ :: _ => false
  | _ :: _, [] => false
  | a :: as, b :: bs => a == b && hashEqSpec as bs

/-- Written from the claim wording: compare first by name_hash, then by
identifier tag, then by port; the address field is never consulted. -/
def dsLtLexSpec (a b : DiscoveredService) : Bool :=
  hashLtSpec a.name_hash b.name_hash ||
  (hashEqSpec a.name_hash b.name_hash &&
   (a.identifier.tag < b.identifier.tag ||
    (a.identifier.tag == b.identifier.tag && decide (a.port < b.port))))

/-
Helper lemmas.
-/

lemma hashCmp_self (n : Hash) : hashCmp n n = Ordering.eq := by
  induction n with
  | nil => rfl
  | cons a as ih => simp [hashCmp, ih]

lemma hashCmp_expand (n₁ n₂ : Hash) (r : Bool) :
    (match hashCmp n₁ n₂ with
     | Ordering.lt => true
     | Ordering.gt => false
     | Ordering.eq => r) =
      (hashLtSpec n₁ n₂ || (hashEqSpec n₁ n₂ && r)) := by
  induction n₁ generalizing n₂ with
  | nil => cases n₂ <;> simp [hashCmp, hashLtSpec, hashEqSpec]
  | cons a as ih =>
    cases n₂ with
    | nil => simp [hashCmp, hashLtSpec, hashEqSpec]
    | cons b bs =>
      by_cases h₁ : a < b
      · simp [hashCmp, hashLtSpec, h₁]
      · by_cases h₂ : b < a
        · have hne : a ≠ b := by omega
          simp [hashCmp, hashLtSpec, hashEqSpec, h₁, h₂, hne]
        · have heq : a = b := by omega
          simp [hashCmp, hashLtSpec, hashEqSpec, h₁, h₂, heq, ih]

lemma rsLt_self (s : RegisteredService) : rsLt s s = false := by
  simp [rsLt]

lemma dsLt_self (d : DiscoveredService) : dsLt d d = false := by
  simp [dsLt, hashCmp_self]

lemma setContains_cons (lt : α → α → Bool) (y : α) (t : List α) (x : α) :
    setContains lt (y :: t) x = ((!lt x y && !lt y x) || setContains lt t x) := by
  simp [setContains]

lemma setContains_insertSorted_self (lt : α → α → Bool) (s : List α) (x : α)
    (hx : lt x x = false) :
    setContains lt (insertSorted lt s x) x = true := by
  induction s with
  | nil => simp [insertSorted, setContains, hx]
  | cons y ys ih =>
    by_cases h : lt x y
    · simp [insertSorted, h, setContains, hx]
    · simp [insertSorted, h, setContains_cons, ih]

lemma setInsert_of_contains (lt : α → α → Bool) (s : List α) (x : α)
    (h : setContains lt s x = true) : setInsert lt s x = (s, false) := by
  simp [setInsert, h]

lemma setInsert_of_not_contains (lt : α → α → Bool) (s : List α) (x : α)
    (h : setContains lt s x = false) : setInsert lt s x = (insertSorted lt s x, true) := by
  simp [setInsert, h]

lemma setContains_filter_not_equiv (lt : α → α → Bool) (s : List α) (x : α) :
    setContains lt (s.filter fun y => lt x y || lt y x) x = false := by
  induction s with
  | nil => simp [setContains]
  | cons y ys ih =>
    rw [List.filter_cons]
    by_cases h : (lt x y || lt y x) = true
    · rw [if_pos h, setContains_cons, ih]
      cases hxy : lt x y <;> cases hyx : lt y x <;> simp_all
    · rw [if_neg h]
      exact ih

/-- C9: for every two DiscoveredService values, the ordering compares
first by name_hash, then by identifier tag, then by port, and ignores
address entirely: two values differing only in address compare equal
(neither is less than the other). -/
theorem C9_discovered_ordering :
    (∀ a b : DiscoveredService, dsLt a b = dsLtLexSpec a b) ∧
    (∀ (x₁ x₂ : Nat) (n : Hash) (i : ServiceIdentifier) (p : Nat),
      dsLt ⟨x₁, n, i, p⟩ ⟨x₂, n, i, p⟩ = false ∧
      dsLt ⟨x₂, n, i, p⟩ ⟨x₁, n, i, p⟩ = false) := by
  constructor
  · intro a b
    show (match hashCmp a.name_hash b.name_hash with
          | Ordering.lt => true
          | Ordering.gt => false
          | Ordering.eq =>
            if a.identifier.tag < b.identifier.tag then true
            else if b.identifier.tag < a.identifier.tag then false
            else a.port < b.port) = dsLtLexSpec a b
    rw [hashCmp_expand, dsLtLexSpec]
    by_cases h₁ : a.identifier.tag < b.identifier.tag
    · simp [h₁]
    · by_cases h₂ : b.identifier.tag < a.identifier.tag
      · have hne : a.identifier.tag ≠ b.identifier.tag := by omega
        simp [h₁, h₂, hne]
      · have heq : a.identifier.tag = b.identifier.tag := by omega
        simp [h₁, h₂, heq]
  · intro x₁ x₂ n i p
    constructor <;> simp [dsLt, hashCmp_self]

/-- C7: an inbound datagram whose group_hash differs from the local
group_hash is dropped by the receive loop: the state is unchanged, no
broadcast is emitted and no callback fires. -/
theorem C7_group_isolation (st : ManagerState) (ip : Nat) (msg : Msg)
    (h : msg.group_hash ≠ st.group_hash) :
    processMsg st ip msg = (st, [], []) := by
  simp [processMsg, h]

theorem C7_group_isolation_witness :
    (Msg.mk MessageType.OFFER [9] [2] ServiceIdentifier.CONTROL 7000).group_hash ≠
      (ManagerState.mk [1] [2] [] [] [(5, 6)]).group_hash ∧
    processMsg (ManagerState.mk [1] [2] [] [] [(5, 6)]) 7
        (Msg.mk MessageType.OFFER [9] [2] ServiceIdentifier.CONTROL 7000) =
      (ManagerState.mk [1] [2] [] [] [(5, 6)], [], []) :=
  ⟨by decide, C7_group_isolation _ _ _ (by decide)⟩

/-- C8: a datagram that fails to decode (DecodeError) leaves the whole
Manager state unchanged and the receive loop proceeds to the next
iteration: running the loop on the remaining trace from the same state. -/
theorem C8_decode_error_resilience :
    ∀ (st : ManagerState) (ip : Nat) (rest : List (Nat × Option Msg)),
      processDatagram st ip none = (st, [], []) ∧
      Run st ((ip, none) :: rest) = Run st rest := by
  intro st ip rest
  exact ⟨rfl, rfl⟩

/-- C10: processing an inbound REQUEST datagram leaves every shared
structure unchanged (the whole state is returned as-is) and dispatches
no callback; every broadcast it emits has type OFFER. -/
theorem C10_request_frame (st : ManagerState) (ip : Nat) (msg : Msg)
    (hm : msg.mtype = MessageType.REQUEST) :
    (processMsg st ip msg).1 = st ∧
    (processMsg st ip msg).2.2 = [] ∧
    ∀ b ∈ (processMsg st ip msg).2.1, b.mtype = MessageType.OFFER := by
  by_cases hg : msg.group_hash = st.group_hash
  · by_cases hn : msg.name_hash = st.name_hash
    · refine ⟨?_, ?_, ?_⟩
      · simp [processMsg, hg, hn, hm]
      · simp [processMsg, hg, hn, hm]
      · intro b hb
        simp [processMsg, hg, hn, hm, SendMessage] at hb
        obtain ⟨x, ⟨hx, hid⟩, heq⟩ := hb
        rw [← heq]
    · simp [processMsg, hg, hn]
  · simp [processMsg, hg]

theorem C10_request_frame_witness :
    (Msg.mk MessageType.REQUEST [1] [2] ServiceIdentifier.CONTROL 7000).mtype =
      MessageType.REQUEST ∧
    ((processMsg
        (ManagerState.mk [1] [2] [RegisteredService.mk ServiceIdentifier.CONTROL 7000]
          [] [(5, 6)]) 7
        (Msg.mk MessageType.REQUEST [1] [2] ServiceIdentifier.CONTROL 7000)).1 =
      ManagerState.mk [1] [2] [RegisteredService.mk ServiceIdentifier.CONTROL 7000]
        [] [(5, 6)] ∧
     (processMsg
        (ManagerState.mk [1] [2] [RegisteredService.mk ServiceIdentifier.CONTROL 7000]
          [] [(5, 6)]) 7
        (Msg.mk MessageType.REQUEST [1] [2] ServiceIdentifier.CONTROL 7000)).2.2 = [] ∧
     ∀ b ∈ (processMsg
        (ManagerState.mk [1] [2] [RegisteredService.mk ServiceIdentifier.CONTROL 7000]
          [] [(5, 6)]) 7
        (Msg.mk MessageType.REQUEST [1] [2] ServiceIdentifier.CONTROL 7000)).2.1,
       b.mtype = MessageType.OFFER) :=
  ⟨rfl, C10_request_frame _ _ _ rfl⟩

/-- C1: the claim fails on the code.  The self-suppression check at
src/CHIRP/Manager.cpp line 143 reads GetNameHash() != name_hash_ and
continues, although its comment says "Broadcast from self, ignore":
the condition is inverted.  Consequently an inbound OFFER carrying the
LOCAL name hash passes the filter, mutates discovered_services and fires
a callback (first conjunct), while a datagram carrying a DIFFERENT name
hash is dropped (second conjunct) — the exact opposite of the claim. -/
theorem C1_self_datagram_processed :
    processMsg (ManagerState.mk [1] [2] [] [] [(5, 6)]) 7
        (Msg.mk MessageType.OFFER [1] [2] ServiceIdentifier.CONTROL 7000) =
      (ManagerState.mk [1] [2] []
         [DiscoveredService.mk 7 [2] ServiceIdentifier.CONTROL 7000] [(5, 6)],
       [],
       [CallbackInvocation.mk (5, 6)
          (DiscoveredService.mk 7 [2] ServiceIdentifier.CONTROL 7000) false]) ∧
    processMsg (ManagerState.mk [1] [2] [] [] [(5, 6)]) 7
        (Msg.mk MessageType.OFFER [1] [3] ServiceIdentifier.CONTROL 7000) =
      (ManagerState.mk [1] [2] [] [] [(5, 6)], [], []) := by
  exact ⟨by decide, by decide⟩

/-- C6: an inbound REQUEST that passes the filters makes the Manager
emit one OFFER for each registered service whose identifier equals the
REQUEST's service identifier, carrying that service's port, and nothing
else; if no registered service has that identifier, nothing is
emitted. -/
theorem C6_request_replay (st : ManagerState) (ip : Nat) (msg : Msg)
    (hm : msg.mtype = MessageType.REQUEST)
    (hg : msg.group_hash = st.group_hash) (hn : msg.name_hash = st.name_hash) :
    processMsg st ip msg =
      (st,
       (st.registered.filter fun service => service.identifier = msg.service_id).map
         fun service => SendMessage st MessageType.OFFER service,
       []) ∧
    ((∀ service ∈ st.registered, service.identifier ≠ msg.service_id) →
      (processMsg st ip msg).2.1 = []) := by
  have h1 : processMsg st ip msg =
      (st,
       (st.registered.filter fun service => service.identifier = msg.service_id).map
         fun service => SendMessage st MessageType.OFFER service,
       []) := by
    simp [processMsg, hg, hn, hm]
  refine ⟨h1, ?_⟩
  intro hnone
  rw [h1]
  simp only [List.map_eq_nil_iff]
  rw [List.filter_eq_nil_iff]
  intro service hs
  simp [hnone service hs]

theorem C6_request_replay_witness :
    (Msg.mk MessageType.REQUEST [1] [2] ServiceIdentifier.CONTROL 7000).mtype =
      MessageType.REQUEST ∧
    (Msg.mk MessageType.REQUEST [1] [2] ServiceIdentifier.CONTROL 7000).group_hash =
      (ManagerState.mk [1] [2]
        [RegisteredService.mk ServiceIdentifier.CONTROL 7000,
         RegisteredService.mk ServiceIdentifier.DATA 9000] [] []).group_hash ∧
    (Msg.mk MessageType.REQUEST [1] [2] ServiceIdentifier.CONTROL 7000).name_hash =
      (ManagerState.mk [1] [2]
        [RegisteredService.mk ServiceIdentifier.CONTROL 7000,
         RegisteredService.mk ServiceIdentifier.DATA 9000] [] []).name_hash ∧
    (processMsg
       (ManagerState.mk [1] [2]
         [RegisteredService.mk ServiceIdentifier.CONTROL 7000,
          RegisteredService.mk ServiceIdentifier.DATA 9000] [] []) 7
       (Msg.mk MessageType.REQUEST [1] [2] ServiceIdentifier.CONTROL 7000) =
      (ManagerState.mk [1] [2]
        [RegisteredService.mk ServiceIdentifier.CONTROL 7000,
         RegisteredService.mk ServiceIdentifier.DATA 9000] [] [],
       [Broadcast.mk MessageType.OFFER [1] [2] ServiceIdentifier.CONTROL 7000],
       [])) :=
  ⟨rfl, rfl, rfl, by
    have h := (C6_request_replay
      (ManagerState.mk [1] [2]
        [RegisteredService.mk ServiceIdentifier.CONTROL 7000,
         RegisteredService.mk ServiceIdentifier.DATA 9000] [] []) 7
      (Msg.mk MessageType.REQUEST [1] [2] ServiceIdentifier.CONTROL 7000)
      rfl rfl rfl).1
    simpa using h⟩

/-- C5: UnregisterService returns true and emits exactly one LEAVING
broadcast iff the service was actually removed (it was present in the
registered set), and otherwise returns false, emits nothing and leaves
the set unchanged; UnregisterServices empties the registered set and
emits one LEAVING per registered service in the set's iteration
order. -/
theorem C5_unregister_semantics :
    ∀ (st : ManagerState) (service : RegisteredService),
      ((UnregisterService st service).2.1 = setContains rsLt st.registered service) ∧
      ((UnregisterService st service).2.2 =
        if setContains rsLt st.registered service then
          [SendMessage st MessageType.LEAVING service]
        else []) ∧
      ((UnregisterService st service).1.registered =
        if setContains rsLt st.registered service then
          st.registered.filter fun y => rsLt service y || rsLt y service
        else st.registered) ∧
      ((UnregisterServices st).2 =
        st.registered.map fun y => SendMessage st MessageType.LEAVING y) ∧
      ((UnregisterServices st).1.registered = []) := by
  intro st service
  by_cases h : setContains rsLt st.registered service
  · exact ⟨by simp [UnregisterService, setErase, h],
           by simp [UnregisterService, setErase, h],
           by simp [UnregisterService, setErase, h], rfl, rfl⟩
  · exact ⟨by simp [UnregisterService, setErase, h],
           by simp [UnregisterService, setErase, h],
           by simp [UnregisterService, setErase, h], rfl, rfl⟩

/-- C3: on Manager destruction, one LEAVING broadcast is emitted for
every service still registered (exactly one each, when the set holds no
duplicates), and the registered set is cleared afterwards. -/
theorem C3_shutdown_leaving (st : ManagerState) (hnd : st.registered.Nodup) :
    (destructor st).2 =
      st.registered.map (fun service => SendMessage st MessageType.LEAVING service) ∧
    (destructor st).1.registered = [] ∧
    ∀ service ∈ st.registered,
      (destructor st).2.count (SendMessage st MessageType.LEAVING service) = 1 := by
  refine ⟨rfl, rfl, ?_⟩
  intro service hs
  have hinj : Function.Injective
      (fun service => SendMessage st MessageType.LEAVING service) := by
    intro a b hab
    have h₁ := congrArg Broadcast.identifier hab
    have h₂ := congrArg Broadcast.port hab
    cases a
    cases b
    simp [SendMessage] at h₁ h₂
    simp [h₁, h₂]
  show (st.registered.map _).count _ = 1
  rw [List.count_map_of_injective _ _ hinj]
  exact List.count_eq_one_of_mem hnd hs

theorem C3_shutdown_leaving_witness :
    (ManagerState.mk [1] [2]
      [RegisteredService.mk ServiceIdentifier.CONTROL 7000,
       RegisteredService.mk ServiceIdentifier.DATA 9000] [] []).registered.Nodup ∧
    ((destructor (ManagerState.mk [1] [2]
        [RegisteredService.mk ServiceIdentifier.CONTROL 7000,
         RegisteredService.mk ServiceIdentifier.DATA 9000] [] [])).2 =
      [Broadcast.mk MessageType.LEAVING [1] [2] ServiceIdentifier.CONTROL 7000,
       Broadcast.mk MessageType.LEAVING [1] [2] ServiceIdentifier.DATA 9000] ∧
     (destructor (ManagerState.mk [1] [2]
        [RegisteredService.mk ServiceIdentifier.CONTROL 7000,
         RegisteredService.mk ServiceIdentifier.DATA 9000] [] [])).1.registered = []) := by
  constructor
  · decide
  · have h := C3_shutdown_leaving (ManagerState.mk [1] [2]
      [RegisteredService.mk ServiceIdentifier.CONTROL 7000,
       RegisteredService.mk ServiceIdentifier.DATA 9000] [] []) (by decide)
    exact ⟨h.1, h.2.1⟩

/-- N successive RegisterService calls with the same service, returning
the final state, the list of return values and the concatenated
broadcasts. -/
def registerN (service : RegisteredService) :
    ManagerState → Nat → ManagerState × List Bool × List Broadcast
  | st, 0 => (st, [], [])
  | st, n + 1 =>
    let r := RegisterService st service
    let r2 := registerN service r.1 n
    (r2.1, r.2.1 :: r2.2.1, r.2.2 ++ r2.2.2)

lemma RegisterService_of_contains (st : ManagerState) (service : RegisteredService)
    (h : setContains rsLt st.registered service = true) :
    RegisterService st service = (st, false, []) := by
  simp [RegisterService, setInsert_of_contains _ _ _ h]

lemma registerN_of_contains (service : RegisteredService) (st : ManagerState)
    (h : setContains rsLt st.registered service = true) (n : Nat) :
    registerN service st n = (st, List.replicate n false, []) := by
  induction n with
  | zero => rfl
  | succ n ih =>
    simp [registerN, RegisterService_of_contains st service h, ih, List.replicate_succ]

/-- C4: starting from a state where the service is not yet registered,
N+1 successive RegisterService calls insert the service once and emit
exactly one OFFER broadcast; the first call returns true and every later
call returns false with no further broadcast. -/
theorem C4_register_idempotence (st : ManagerState) (service : RegisteredService)
    (n : Nat) (h : setContains rsLt st.registered service = false) :
    registerN service st (n + 1) =
      ({ st with registered := insertSorted rsLt st.registered service },
       true :: List.replicate n false,
       [SendMessage st MessageType.OFFER service]) ∧
    setContains rsLt (registerN service st (n + 1)).1.registered service = true := by
  have h1 : RegisterService st service =
      ({ st with registered := insertSorted rsLt st.registered service }, true,
       [SendMessage st MessageType.OFFER service]) := by
    simp [RegisterService, setInsert_of_not_contains _ _ _ h]
  have h2 : setContains rsLt (insertSorted rsLt st.registered service) service = true :=
    setContains_insertSorted_self _ _ _ (rsLt_self service)
  have h3 : registerN service
      { st with registered := insertSorted rsLt st.registered service } n =
      ({ st with registered := insertSorted rsLt st.registered service },
       List.replicate n false, []) :=
    registerN_of_contains _ _ h2 n
  constructor
  · simp [registerN, h1, h3]
  · simp [registerN, h1, h3, h2]

theorem C4_register_idempotence_witness :
    setContains rsLt (ManagerState.mk [1] [2] [] [] []).registered
      (RegisteredService.mk ServiceIdentifier.CONTROL 7000) = false ∧
    (registerN (RegisteredService.mk ServiceIdentifier.CONTROL 7000)
        (ManagerState.mk [1] [2] [] [] []) 3 =
      (ManagerState.mk [1] [2] [RegisteredService.mk ServiceIdentifier.CONTROL 7000] [] [],
       [true, false, false],
       [Broadcast.mk MessageType.OFFER [1] [2] ServiceIdentifier.CONTROL 7000])) := by
  constructor
  · decide
  · have h := (C4_register_idempotence (ManagerState.mk [1] [2] [] [] [])
      (RegisteredService.mk ServiceIdentifier.CONTROL 7000) 2 (by decide)).1
    simpa using h

lemma callbackInvocation_mk_injective (d : DiscoveredService) (b : Bool) :
    Function.Injective fun cb : CallbackEntry => CallbackInvocation.mk cb d b := by
  intro a a' hab
  exact congrArg CallbackInvocation.entry hab

/-- C2: for an inbound OFFER that passes the receive-loop filters, the
service D = (source_ip, name_hash, identifier, port) is inserted into
the discovered set iff it is not already present (under the
address-ignoring comparator), and on that insertion each registered
callback is dispatched exactly once with departing = false; a second
OFFER for an already-known D changes nothing and fires no callback.
Symmetrically, a LEAVING removes D iff present, dispatching each
callback exactly once with departing = true, and a LEAVING for an
unknown D is silent. -/
theorem C2_offer_leaving_transitions (st : ManagerState) (ip : Nat) (msg : Msg)
    (hg : msg.group_hash = st.group_hash) (hn : msg.name_hash = st.name_hash) :
    (msg.mtype = MessageType.OFFER →
      (setContains dsLt st.discovered ⟨ip, msg.name_hash, msg.service_id, msg.port⟩ = true →
        processMsg st ip msg = (st, [], [])) ∧
      (setContains dsLt st.discovered ⟨ip, msg.name_hash, msg.service_id, msg.port⟩ = false →
        processMsg st ip msg =
          ({ st with discovered :=
              insertSorted dsLt st.discovered ⟨ip, msg.name_hash, msg.service_id, msg.port⟩ },
           [],
           st.callbacks.map fun cb =>
             ⟨cb, ⟨ip, msg.name_hash, msg.service_id, msg.port⟩, false⟩) ∧
        setContains dsLt (processMsg st ip msg).1.discovered
          ⟨ip, msg.name_hash, msg.service_id, msg.port⟩ = true ∧
        (st.callbacks.Nodup → ∀ cb ∈ st.callbacks,
          (processMsg st ip msg).2.2.count
            ⟨cb, ⟨ip, msg.name_hash, msg.service_id, msg.port⟩, false⟩ = 1))) ∧
    (msg.mtype = MessageType.LEAVING →
      (setContains dsLt st.discovered ⟨ip, msg.name_hash, msg.service_id, msg.port⟩ = false →
        processMsg st ip msg = (st, [], [])) ∧
      (setContains dsLt st.discovered ⟨ip, msg.name_hash, msg.service_id, msg.port⟩ = true →
        processMsg st ip msg =
          ({ st with discovered :=
              st.discovered.filter (fun y =>
                dsLt ⟨ip, msg.name_hash, msg.service_id, msg.port⟩ y ||
                dsLt y ⟨ip, msg.name_hash, msg.service_id, msg.port⟩) },
           [],
           st.callbacks.map fun cb =>
             ⟨cb, ⟨ip, msg.name_hash, msg.service_id, msg.port⟩, true⟩) ∧
        setContains dsLt (processMsg st ip msg).1.discovered
          ⟨ip, msg.name_hash, msg.service_id, msg.port⟩ = false ∧
        (st.callbacks.Nodup → ∀ cb ∈ st.callbacks,
          (processMsg st ip msg).2.2.count
            ⟨cb, ⟨ip, msg.name_hash, msg.service_id, msg.port⟩, true⟩ = 1))) := by
  obtain ⟨mt, mg, mn, msid, mp⟩ := msg
  simp only at hg hn ⊢
  subst hg
  subst hn
  constructor
  · intro hm
    subst hm
    constructor
    · intro hc
      simp [processMsg, hc]
    · intro hc
      have hpm : processMsg st ip (Msg.mk MessageType.OFFER st.group_hash st.name_hash msid mp) =
          ({ st with discovered :=
              insertSorted dsLt st.discovered ⟨ip, st.name_hash, msid, mp⟩ },
           [],
           st.callbacks.map fun cb => ⟨cb, ⟨ip, st.name_hash, msid, mp⟩, false⟩) := by
        simp [processMsg, hc, setInsert]
      refine ⟨hpm, ?_, ?_⟩
      · rw [hpm]
        exact setContains_insertSorted_self _ _ _ (dsLt_self _)
      · intro hnd cb hcb
        rw [hpm]
        show (st.callbacks.map _).count _ = 1
        rw [List.count_map_of_injective _ _
          (callbackInvocation_mk_injective ⟨ip, st.name_hash, msid, mp⟩ false)]
        exact List.count_eq_one_of_mem hnd hcb
  · intro hm
    subst hm
    constructor
    · intro hc
      simp [processMsg, hc]
    · intro hc
      have hpm : processMsg st ip (Msg.mk MessageType.LEAVING st.group_hash st.name_hash msid mp) =
          ({ st with discovered :=
              st.discovered.filter (fun y =>
                dsLt ⟨ip, st.name_hash, msid, mp⟩ y || dsLt y ⟨ip, st.name_hash, msid, mp⟩) },
           [],
           st.callbacks.map fun cb => ⟨cb, ⟨ip, st.name_hash, msid, mp⟩, true⟩) := by
        simp [processMsg, hc, setErase]
      refine ⟨hpm, ?_, ?_⟩
      · rw [hpm]
        exact setContains_filter_not_equiv _ _ _
      · intro hnd cb hcb
        rw [hpm]
        show (st.callbacks.map _).count _ = 1
        rw [List.count_map_of_injective _ _
          (callbackInvocation_mk_injective ⟨ip, st.name_hash, msid, mp⟩ true)]
        exact List.count_eq_one_of_mem hnd hcb

theorem C2_offer_leaving_transitions_witness :
    (Msg.mk MessageType.OFFER [1] [2] ServiceIdentifier.HEARTBEAT 8000).group_hash =
      (ManagerState.mk [1] [2] [] [] [(9, 4)]).group_hash ∧
    (Msg.mk MessageType.OFFER [1] [2] ServiceIdentifier.HEARTBEAT 8000).name_hash =
      (ManagerState.mk [1] [2] [] [] [(9, 4)]).name_hash ∧
    processMsg (ManagerState.mk [1] [2] [] [] [(9, 4)]) 7
        (Msg.mk MessageType.OFFER [1] [2] ServiceIdentifier.HEARTBEAT 8000) =
      (ManagerState.mk [1] [2] []
         [DiscoveredService.mk 7 [2] ServiceIdentifier.HEARTBEAT 8000] [(9, 4)],
       [],
       [CallbackInvocation.mk (9, 4)
          (DiscoveredService.mk 7 [2] ServiceIdentifier.HEARTBEAT 8000) false]) := by
  refine ⟨rfl, rfl, ?_⟩
  have h := (((C2_offer_leaving_transitions (ManagerState.mk [1] [2] [] [] [(9, 4)]) 7
    (Msg.mk MessageType.OFFER [1] [2] ServiceIdentifier.HEARTBEAT 8000)
    rfl rfl).1 rfl).2 (by decide)).1
  simpa using h

end Chirp
